import Mathlib

/-!
Verification of the TempoStrike rhythm-game core: a shallow embedding of
the chart generator (src/constants.ts, generateChart), the scoring
handlers (src/App.tsx, handleNoteHit / handleNoteMiss) and the per-frame
spawn / collision / miss loop of the game scene (src/components,
GameScene useFrame), together with theorems settling the specified
properties.  Numbers of the source are modelled by rationals; the
injected draw stream models Math.random lane draws.
-/

namespace TempoStrike

/-- Hand assignment of a note (field named type in the source). -/
inductive Hand where
  | left : Hand
  | right : Hand
deriving DecidableEq, Repr

/-- Cut direction enum (src/types, CutDirection). -/
inductive CutDir where
  | up : CutDir
  | down : CutDir
  | left : CutDir
  | right : CutDir
  | any : CutDir
deriving DecidableEq, Repr

/-- One note of a chart (src/types, NoteData).  The string id of the
source is modelled by the numeric counter it is printed from; the
mutable hit / missed / hitTime fields carried by note objects during a
session are included with their initial values. -/
structure NoteData where
  id : ℕ
  time : ℚ
  lineIndex : ℕ
  lineLayer : ℕ
  type : Hand
  cutDirection : CutDir
  hit : Bool := false
  missed : Bool := false
  hitTime : Option ℚ := none
deriving DecidableEq, Repr

instance : Inhabited NoteData :=
  ⟨{ id := 0, time := 0, lineIndex := 0, lineLayer := 0,
     type := Hand.left, cutDirection := CutDir.any }⟩

-- Game world constants (src/constants.ts).
def TRACK_LENGTH : ℚ := 50
def SPAWN_Z : ℚ := -30
def PLAYER_Z : ℚ := 0
def MISS_Z : ℚ := 5
def NOTE_SPEED : ℚ := 10
def LANE_WIDTH : ℚ := 14/10
def NOTE_SIZE : ℚ := 7/10

/-- LANE_X_POSITIONS of src/constants.ts. -/
def LANE_X_POSITIONS : List ℚ :=
  [(-15/10) * LANE_WIDTH, (-5/10) * LANE_WIDTH, (5/10) * LANE_WIDTH, (15/10) * LANE_WIDTH]

/-- LAYER_Y_POSITIONS of src/constants.ts. -/
def LAYER_Y_POSITIONS : List ℚ := [8/10, 16/10, 24/10]

/-- Total beat count of generateChart:
Math.ceil((durationSeconds / 60) * bpm).  Rat.ceil is the executable
ceiling of Batteries. -/
def totalBeats (bpm durationSeconds : ℚ) : ℤ :=
  (durationSeconds / 60 * bpm).ceil

/-- The notes emitted by one iteration of the generateChart loop at beat
index i, together with the updated id counter and draw counter.  The
draw stream r models the successive Math.random lane draws
(getRandomInt over two lanes consumes one draw). -/
def noteAt (r : ℕ → Fin 2) (bpm off : ℚ) (i : ℤ) (idc dc : ℕ) :
    List NoteData × ℕ × ℕ :=
  let beatTime : ℚ := 60 / bpm
  let time : ℚ := off + i * beatTime
  let pattern : ℤ := (i / 16) % 3
  if pattern = 0 then
    if i % 4 = 0 then
      ([{ id := idc, time := time, lineIndex := (r dc).val, lineLayer := 0,
          type := Hand.left, cutDirection := CutDir.any }], idc + 1, dc + 1)
    else
      ([{ id := idc, time := time, lineIndex := 2 + (r dc).val, lineLayer := 0,
          type := Hand.right, cutDirection := CutDir.any }], idc + 1, dc + 1)
  else if pattern = 1 then
    if i % 8 = 0 then
      ([{ id := idc, time := time, lineIndex := 0, lineLayer := 1,
          type := Hand.left, cutDirection := CutDir.any },
        { id := idc + 1, time := time, lineIndex := 3, lineLayer := 1,
          type := Hand.right, cutDirection := CutDir.any }], idc + 2, dc)
    else ([], idc, dc)
  else
    ([{ id := idc, time := time, lineIndex := (r dc).val, lineLayer := 0,
        type := Hand.left, cutDirection := CutDir.any },
      { id := idc + 1, time := time + beatTime, lineIndex := 2 + (r (dc + 1)).val,
        lineLayer := 0, type := Hand.right, cutDirection := CutDir.any }],
     idc + 2, dc + 2)

/-- The generateChart loop over the list of beat indices, threading the
id and draw counters. -/
def genNotesAux (r : ℕ → Fin 2) (bpm off : ℚ) :
    List ℤ → ℕ → ℕ → List NoteData
  | [], _, _ => []
  | i :: rest, idc, dc =>
    let step := noteAt r bpm off i idc dc
    step.1 ++ genNotesAux r bpm off rest step.2.1 step.2.2

/-- Beat indices visited by the generateChart loop:
for (let i = 4; i < totalBeats; i += 2). -/
def chartIdxs (tb : ℤ) : List ℤ :=
  (List.range ((tb - 3).toNat / 2)).map (fun k => 4 + 2 * (k : ℤ))

/-- Comparator of the final notes.sort((a, b) => a.time - b.time) call:
sort ascending by time.  Array.prototype.sort is stable, and a stable
sort is extensionally unique, so the stable insertionSort models it. -/
def leTime (a b : NoteData) : Prop := a.time ≤ b.time

instance : DecidableRel leTime := fun a b => inferInstanceAs (Decidable (a.time ≤ b.time))

/-- generateChart of src/constants.ts, with the Math.random lane draws
made explicit as the injected stream r.  The source performs no
parameter validation and cannot throw: it always returns a list. -/
def generateChart (r : ℕ → Fin 2) (bpm off durationSeconds : ℚ) : List NoteData :=
  List.insertionSort leTime
    (genNotesAux r bpm off (chartIdxs (totalBeats bpm durationSeconds)) 0 0)

-- A fixed draw stream for concrete witnesses.
def rZero : ℕ → Fin 2 := fun _ => 0

-- Let kernel evaluation unfold the rational operations on concrete
-- inputs (they are shipped irreducible).
attribute [local semireducible] Rat.add Rat.mul Rat.inv Rat.sub Rat.ofScientific

instance : IsTotal NoteData leTime := ⟨fun a b => le_total a.time b.time⟩

instance : IsTrans NoteData leTime := ⟨fun _ _ _ => le_trans⟩

lemma ratCeil_nonpos {q : ℚ} (h : q ≤ 0) : q.ceil ≤ 0 := by
  unfold Rat.ceil
  split
  · have := Rat.num_nonpos.mpr h
    omega
  · rename_i hden
    have hnum : q.num ≤ 0 := Rat.num_nonpos.mpr h
    have hnum1 : q.num < 0 := by
      rcases lt_or_eq_of_le hnum with h1 | h1
      · exact h1
      · exfalso
        have hq : q = 0 := by rwa [Rat.num_eq_zero] at h1
        exact hden (by rw [hq]; rfl)
    have hdpos : (0 : ℤ) < (q.den : ℤ) := by exact_mod_cast q.den_pos
    have := Int.ediv_neg' hnum1 hdpos
    omega

lemma totalBeats_nonpos {bpm dur : ℚ}
    (h : (bpm ≤ 0 ∧ 0 < dur) ∨ (dur ≤ 0 ∧ 0 ≤ bpm)) :
    totalBeats bpm dur ≤ 0 := by
  have hx : dur / 60 * bpm ≤ 0 := by
    rcases h with ⟨hb, hd⟩ | ⟨hd, hb⟩
    · exact mul_nonpos_of_nonneg_of_nonpos (le_of_lt (by positivity)) hb
    · exact mul_nonpos_of_nonpos_of_nonneg (div_nonpos_of_nonpos_of_nonneg hd (by norm_num)) hb
  exact ratCeil_nonpos hx

lemma chartIdxs_nil {tb : ℤ} (h : tb ≤ 0) : chartIdxs tb = [] := by
  have h3 : tb - 3 ≤ 0 := by omega
  simp [chartIdxs, Int.toNat_of_nonpos h3]

/-- C1 counterexample: bpm = -120 is invalid (bpm ≤ 0) and the duration
300 is positive, yet generateChart returns a note sequence (the empty
list) rather than failing: the source performs no validation and
contains no throw. -/
theorem generateChart_invalid_returns_sequence :
    ((-120 : ℚ) ≤ 0 ∧ (0 : ℚ) < 300) ∧
      generateChart rZero (-120) 0 300 = [] := by
  constructor
  · constructor <;> norm_num
  · decide

/-- C1 amended: generateChart never signals a validation error; for
bpm ≤ 0 with positive duration, or non-positive duration with
non-negative bpm, it silently returns the empty note sequence. -/
theorem generateChart_no_validation (r : ℕ → Fin 2) (bpm off dur : ℚ)
    (h : (bpm ≤ 0 ∧ 0 < dur) ∨ (dur ≤ 0 ∧ 0 ≤ bpm)) :
    generateChart r bpm off dur = [] := by
  unfold generateChart
  rw [chartIdxs_nil (totalBeats_nonpos h)]
  rfl

/-- Witness for the C1 amended theorem at bpm = -1, duration = 5. -/
theorem generateChart_no_validation_witness :
    generateChart rZero (-1) (1/2) 5 = [] :=
  generateChart_no_validation rZero (-1) (1/2) 5 (Or.inl ⟨by norm_num, by norm_num⟩)

/-- C5: for every positive bpm, every offset and every positive
duration, the chart returned by generateChart is sorted by
non-decreasing time. -/
theorem generateChart_sorted (r : ℕ → Fin 2) (bpm off dur : ℚ)
    (_hb : 0 < bpm) (_hd : 0 < dur) :
    (generateChart r bpm off dur).Sorted leTime :=
  List.sorted_insertionSort leTime _

/-- Witness for C5 at bpm = 120, offset = 0, duration = 4. -/
theorem generateChart_sorted_witness :
    (generateChart rZero 120 0 4).Sorted leTime :=
  generateChart_sorted rZero 120 0 4 (by norm_num) (by norm_num)

lemma noteAt_counters (r : ℕ → Fin 2) (bpm o : ℚ) (i : ℤ) (idc dc : ℕ) :
    (noteAt r bpm o i idc dc).2 = (noteAt r bpm 0 i idc dc).2 := by
  simp only [noteAt]
  split_ifs <;> rfl

lemma noteAt_times (r : ℕ → Fin 2) (bpm o : ℚ) (i : ℤ) (idc dc : ℕ) :
    (noteAt r bpm o i idc dc).1.map NoteData.time
      = ((noteAt r bpm 0 i idc dc).1.map NoteData.time).map (fun x => x + o) := by
  simp only [noteAt]
  split_ifs <;> simp [add_comm, add_assoc, add_left_comm]

lemma genNotesAux_times (r : ℕ → Fin 2) (bpm o : ℚ) :
    ∀ (idxs : List ℤ) (idc dc : ℕ),
      (genNotesAux r bpm o idxs idc dc).map NoteData.time
        = ((genNotesAux r bpm 0 idxs idc dc).map NoteData.time).map (fun x => x + o)
  | [], _, _ => by simp [genNotesAux]
  | i :: rest, idc, dc => by
    simp only [genNotesAux, List.map_append]
    rw [noteAt_counters r bpm o i idc dc]
    rw [genNotesAux_times r bpm o rest _ _, noteAt_times r bpm o i idc dc]

lemma map_time_sorted {l : List NoteData} (h : l.Sorted leTime) :
    (l.map NoteData.time).Sorted (· ≤ ·) :=
  List.Pairwise.map _ (fun _ _ hab => hab) h

/-- C6: for identical draw streams, the note times of
generateChart bpm o dur equal, pairwise in order, those of
generateChart bpm 0 dur shifted by o. -/
theorem generateChart_offset_shift (r : ℕ → Fin 2) (bpm o dur : ℚ)
    (_hb : 0 < bpm) :
    (generateChart r bpm o dur).map NoteData.time
      = ((generateChart r bpm 0 dur).map NoteData.time).map (fun x => x + o) := by
  have hs1 : ((generateChart r bpm o dur).map NoteData.time).Sorted (· ≤ ·) :=
    map_time_sorted (List.sorted_insertionSort leTime _)
  have hs0 : ((generateChart r bpm 0 dur).map NoteData.time).Sorted (· ≤ ·) :=
    map_time_sorted (List.sorted_insertionSort leTime _)
  have hs0o : (((generateChart r bpm 0 dur).map NoteData.time).map (fun x => x + o)).Sorted (· ≤ ·) :=
    List.Pairwise.map _ (fun _ _ hab => by simpa using hab) hs0
  refine List.eq_of_perm_of_sorted ?_ hs1 hs0o
  have p1 : ((generateChart r bpm o dur).map NoteData.time).Perm
      ((genNotesAux r bpm o (chartIdxs (totalBeats bpm dur)) 0 0).map NoteData.time) :=
    (List.perm_insertionSort leTime _).map NoteData.time
  have p2 : (genNotesAux r bpm o (chartIdxs (totalBeats bpm dur)) 0 0).map NoteData.time
      = ((genNotesAux r bpm 0 (chartIdxs (totalBeats bpm dur)) 0 0).map NoteData.time).map
          (fun x => x + o) := genNotesAux_times r bpm o _ 0 0
  have p3 : (((genNotesAux r bpm 0 (chartIdxs (totalBeats bpm dur)) 0 0).map
        NoteData.time).map (fun x => x + o)).Perm
      (((generateChart r bpm 0 dur).map NoteData.time).map (fun x => x + o)) :=
    (((List.perm_insertionSort leTime _).map NoteData.time).map (fun x => x + o)).symm
  exact p1.trans (p2 ▸ p3)

/-- Witness for C6 at bpm = 120, o = 1/2, duration = 4. -/
theorem generateChart_offset_shift_witness :
    (generateChart rZero 120 (1/2) 4).map NoteData.time
      = ((generateChart rZero 120 0 4).map NoteData.time).map (fun x => x + 1/2) :=
  generateChart_offset_shift rZero 120 (1/2) 4 (by norm_num)

/-- Session counters of App.tsx (score, combo, multiplier, health,
isNoFailMode).  defeatSignals counts the endGame(false) defeat signals
scheduled by handleNoteMiss. -/
structure SessionState where
  score : ℕ
  combo : ℕ
  multiplier : ℕ
  health : ℤ
  noFail : Bool
  defeatSignals : ℕ
deriving DecidableEq, Repr

/-- The multiplier step function installed by the setCombo updater of
handleNoteHit: newCombo>30 gives 8, >20 gives 4, >10 gives 2, else 1. -/
def multOf (c : ℕ) : ℕ :=
  if 30 < c then 8 else if 20 < c then 4 else if 10 < c then 2 else 1

/-- handleNoteHit of src/App.tsx: points = 100 (+50 on a good cut),
score increases by points times the multiplier value captured before
this event updates it, combo increments, the multiplier is recomputed
from the new combo, and health heals by 2 capped at 100 with no
noFailMode test on this path. -/
def handleNoteHit (goodCut : Bool) (s : SessionState) : SessionState :=
  let points : ℕ := if goodCut then 150 else 100
  let newCombo := s.combo + 1
  { s with
    score := s.score + points * s.multiplier
    combo := newCombo
    multiplier := multOf newCombo
    health := min 100 (s.health + 2) }

/-- handleNoteMiss of src/App.tsx: combo and multiplier reset; when not
in noFailMode health drops by 15, clamping at 0 and scheduling the
defeat signal when the new value is non-positive. -/
def handleNoteMiss (s : SessionState) : SessionState :=
  let s1 := { s with combo := 0, multiplier := 1 }
  if s.noFail then s1
  else
    let newHealth := s.health - 15
    if newHealth ≤ 0 then
      { s1 with health := 0, defeatSignals := s.defeatSignals + 1 }
    else
      { s1 with health := newHealth }

/-- Session state installed by handleStartRequest of src/App.tsx. -/
def initialState (noFail : Bool) : SessionState :=
  { score := 0, combo := 0, multiplier := 1, health := 100,
    noFail := noFail, defeatSignals := 0 }

/-- C3 counterexample: in a noFailMode session at health 50, a single
hit event raises health to 52, so health does change during the
session. -/
theorem noFail_health_changes_on_hit :
    ({ score := 0, combo := 0, multiplier := 1, health := 50,
       noFail := true, defeatSignals := 0 } : SessionState).noFail = true ∧
    (handleNoteHit true
      { score := 0, combo := 0, multiplier := 1, health := 50,
        noFail := true, defeatSignals := 0 }).health = 52 := by
  decide

/-- C3 amended: with noFailMode on, miss events never change health and
never fire a defeat signal; only hit events can change health (they
heal). -/
theorem noFail_miss_preserves_health (s : SessionState) (h : s.noFail = true) :
    (handleNoteMiss s).health = s.health ∧
      (handleNoteMiss s).defeatSignals = s.defeatSignals := by
  simp [handleNoteMiss, h]

/-- Witness for the C3 amended theorem at the initial noFailMode
state. -/
theorem noFail_miss_preserves_health_witness :
    (handleNoteMiss (initialState true)).health = (initialState true).health ∧
      (handleNoteMiss (initialState true)).defeatSignals
        = (initialState true).defeatSignals :=
  noFail_miss_preserves_health (initialState true) (by decide)

/-- C4: when the stored multiplier reflects the combo streak before the
hit, a hit event adds exactly (100, plus 50 on a good cut) times that
pre-increment multiplier to the score, and combo increments by 1. -/
theorem hit_scoring (s : SessionState) (goodCut : Bool)
    (h : s.multiplier = multOf s.combo) :
    (handleNoteHit goodCut s).score
        = s.score + (100 + (if goodCut then 50 else 0)) * multOf s.combo ∧
      (handleNoteHit goodCut s).combo = s.combo + 1 := by
  cases goodCut <;> simp [handleNoteHit, h]

/-- Witness for C4 at combo 15 (multiplier 2), a good cut. -/
theorem hit_scoring_witness :
    (handleNoteHit true
      { score := 1000, combo := 15, multiplier := 2, health := 80,
        noFail := false, defeatSignals := 0 }).score
        = 1000 + (100 + 50) * multOf 15 ∧
      (handleNoteHit true
        { score := 1000, combo := 15, multiplier := 2, health := 80,
          noFail := false, defeatSignals := 0 }).combo = 15 + 1 :=
  hit_scoring _ true (by decide)

/-- C7: from health 100 with noFailMode off, 7 consecutive misses drive
health through 85, 70, 55, 40, 25, 10 to exactly 0, and the defeat
signal fires exactly once, on the 7th miss. -/
theorem seven_misses_defeat :
    ((List.range 7).map
        (fun k => (handleNoteMiss^[k + 1] (initialState false)).health)
      = [85, 70, 55, 40, 25, 10, 0]) ∧
    ((List.range 7).map
        (fun k => (handleNoteMiss^[k + 1] (initialState false)).defeatSignals)
      = [0, 0, 0, 0, 0, 0, 1]) := by
  decide

/-- C10: a hit event always sets health to min(100, health + 2); the
heal is applied for every session state, in particular regardless of
noFailMode. -/
theorem hit_heals_unconditionally (s : SessionState) (goodCut : Bool) :
    (handleNoteHit goodCut s).health = min 100 (s.health + 2) := by
  simp [handleNoteHit]

/-- Hand kinematics sampled once per tick (handPositionsRef): a
position or absence per hand, plus a velocity vector per hand. -/
structure HandPositions where
  left : Option (ℚ × ℚ × ℚ)
  right : Option (ℚ × ℚ × ℚ)
  leftVelocity : ℚ × ℚ × ℚ
  rightVelocity : ℚ × ℚ × ℚ
deriving DecidableEq, Repr

/-- Squared Euclidean distance; handPos.distanceTo(notePos) < 0.9 is
modelled as the squared comparison distSq < 81/100. -/
def distSq (p q : ℚ × ℚ × ℚ) : ℚ :=
  (p.1 - q.1)^2 + (p.2.1 - q.2.1)^2 + (p.2.2 - q.2.2)^2

/-- Squared vector length; speed < 1.5 becomes normSq < 9/4. -/
def normSq (v : ℚ × ℚ × ℚ) : ℚ := v.1^2 + v.2.1^2 + v.2.2^2

/-- DIRECTION_VECTORS of src/constants.ts. -/
def dirVec : CutDir → ℚ × ℚ × ℚ
  | CutDir.up => (0, 1, 0)
  | CutDir.down => (0, -1, 0)
  | CutDir.left => (-1, 0, 0)
  | CutDir.right => (1, 0, 0)
  | CutDir.any => (0, 0, 0)

def dot3 (a b : ℚ × ℚ × ℚ) : ℚ := a.1 * b.1 + a.2.1 * b.2.1 + a.2.2 * b.2.2

/-- vecB.copy(handVel).normalize().dot(requiredDir) < 0.3, stated
without square roots: the normalized dot is below 3/10 exactly when the
raw dot is non-positive or its square is below (9/100) of the squared
speed (and normalize maps the zero vector to itself, giving dot 0). -/
def dotBelow (v d : ℚ × ℚ × ℚ) : Bool :=
  decide (dot3 v d ≤ 0) || decide ((dot3 v d)^2 < 9/100 * normSq v)

def handOf (hands : HandPositions) : Hand → Option (ℚ × ℚ × ℚ)
  | Hand.left => hands.left
  | Hand.right => hands.right

def velOf (hands : HandPositions) : Hand → ℚ × ℚ × ℚ
  | Hand.left => hands.leftVelocity
  | Hand.right => hands.rightVelocity

/-- The goodCut classification of the collision branch of GameScene. -/
def goodCutOf (hands : HandPositions) (n : NoteData) : Bool :=
  let v := velOf hands n.type
  match n.cutDirection with
  | CutDir.any => !decide (normSq v < 9/4)
  | d => !(dotBelow v (dirVec d) || decide (normSq v < 9/4))

/-- currentZ = PLAYER_Z - (note.time - time) * NOTE_SPEED. -/
def currentZ (t : ℚ) (n : NoteData) : ℚ :=
  PLAYER_Z - (n.time - t) * NOTE_SPEED

/-- The 3D target centre of a note at depth z
(LANE_X_POSITIONS[lineIndex], LAYER_Y_POSITIONS[lineLayer], z). -/
def targetPos (n : NoteData) (z : ℚ) : ℚ × ℚ × ℚ :=
  (LANE_X_POSITIONS.getD n.lineIndex 0, LAYER_Y_POSITIONS.getD n.lineLayer 0, z)

/-- Resolution of one active note in one tick. -/
inductive StepOut where
  | skip : StepOut
  | keep : StepOut
  | toMiss : StepOut
  | toHit : Bool → StepOut
deriving DecidableEq, Repr

/-- The body of the active-notes loop of GameScene useFrame for one
note: already-resolved notes are skipped; then the miss check
(currentZ > MISS_Z) runs first; only otherwise, and only inside the
collision band, is the hand tested for a collision match. -/
def noteStep (hands : HandPositions) (t : ℚ) (n : NoteData) : StepOut :=
  if n.hit || n.missed then StepOut.skip
  else
    let z := currentZ t n
    if MISS_Z < z then StepOut.toMiss
    else if PLAYER_Z - 3/2 < z ∧ z < PLAYER_Z + 1 then
      match handOf hands n.type with
      | none => StepOut.keep
      | some p =>
        if distSq p (targetPos n z) < 81/100 then StepOut.toHit (goodCutOf hands n)
        else StepOut.keep
    else StepOut.keep

/-- Scene-level working state of GameScene: the shared note objects,
the spawn cursor (nextNoteIndexRef) and the active set
(activeNotesRef, stored as indices into notes). -/
structure SceneState where
  notes : List NoteData
  cursor : ℕ
  active : List ℕ
deriving DecidableEq, Repr

/-- A scoring callback fired during a tick. -/
inductive GameEvent where
  | hitEv : ℕ → Bool → GameEvent
  | missEv : ℕ → GameEvent
deriving DecidableEq, Repr

/-- spawnAheadTime = Math.abs(SPAWN_Z - PLAYER_Z) / NOTE_SPEED. -/
def spawnAheadTime : ℚ := |SPAWN_Z - PLAYER_Z| / NOTE_SPEED

/-- Number of notes admitted by the spawn while-loop this tick: the
longest prefix of the unspawned suffix with
note.time - spawnAheadTime <= time. -/
def admitCount (notes : List NoteData) (cursor : ℕ) (t : ℚ) : ℕ :=
  ((notes.drop cursor).takeWhile (fun n => decide (n.time - spawnAheadTime ≤ t))).length

/-- The update-and-collide loop over the active set.  The source
iterates backward with splice; processing the reversed index list
front-first and reversing the survivors is the same traversal.  Each
index is handled by noteStep; a resolved note is written back and
dropped from the active set, and the callback event is recorded. -/
def procActive (hands : HandPositions) (t : ℚ) :
    List ℕ → List NoteData → List ℕ × List NoteData × List GameEvent
  | [], notes => ([], notes, [])
  | j :: rest, notes =>
    match noteStep hands t (notes.getD j default) with
    | StepOut.skip =>
      let r := procActive hands t rest notes
      (j :: r.1, r.2.1, r.2.2)
    | StepOut.keep =>
      let r := procActive hands t rest notes
      (j :: r.1, r.2.1, r.2.2)
    | StepOut.toMiss =>
      let r := procActive hands t rest
        (notes.set j { notes.getD j default with missed := true })
      (r.1, r.2.1, GameEvent.missEv j :: r.2.2)
    | StepOut.toHit g =>
      let r := procActive hands t rest
        (notes.set j { notes.getD j default with hit := true, hitTime := some t })
      (r.1, r.2.1, GameEvent.hitEv j g :: r.2.2)

/-- One gameplay tick of GameScene useFrame: spawn admission first
(while-loop over the time-ordered chart), then the update-and-collide
pass over the active set. -/
def tick (st : SceneState) (t : ℚ) (hands : HandPositions) :
    SceneState × List GameEvent :=
  let ac := admitCount st.notes st.cursor t
  let active1 := st.active ++ (List.range ac).map (fun k => st.cursor + k)
  let pr := procActive hands t active1.reverse st.notes
  ({ notes := pr.2.1, cursor := st.cursor + ac, active := pr.1.reverse }, pr.2.2)

/-- Iterated ticks over a sequence of (time, hands) samples. -/
def runTicks (st : SceneState) : List (ℚ × HandPositions) → SceneState
  | [] => st
  | (t, hands) :: rest => runTicks (tick st t hands).1 rest

/-- A left note at time 0, lane 0, layer 0, direction any (the shape
generateChart emits). -/
def cexNote : NoteData :=
  { id := 0, time := 0, lineIndex := 0, lineLayer := 0,
    type := Hand.left, cutDirection := CutDir.any }

/-- A left hand exactly on the centre of cexNote at depth 11/2, moving
fast enough for a cut. -/
def cexHands : HandPositions :=
  { left := some (-21/10, 8/10, 11/2), right := none,
    leftVelocity := (0, 2, 0), rightVelocity := (0, 0, 0) }

/-- C2 counterexample: at time 11/20 the note sits at depth 11/2, past
the miss plane, while the matching hand is exactly on it (distance 0)
with ample speed; the tick resolves the note as a miss, not a hit, so
collision does not take precedence. -/
theorem miss_beats_collision_cex :
    MISS_Z < currentZ (11/20) cexNote ∧
    distSq (-21/10, 8/10, 11/2) (targetPos cexNote (currentZ (11/20) cexNote)) < 81/100 ∧
    ¬(normSq cexHands.leftVelocity < 9/4) ∧
    noteStep cexHands (11/20) cexNote = StepOut.toMiss := by
  decide

/-- C2 amended: within a tick the miss check is evaluated first, so an
unresolved note past the miss plane resolves as a miss whatever the
hands do; and because the miss region (currentZ > MISS_Z = 5) is
disjoint from the collision band (currentZ < PLAYER_Z + 1 = 1), no note
is simultaneously eligible for both, and a note inside the collision
band is never resolved as a miss in that tick. -/
theorem miss_checked_first (hands : HandPositions) (t : ℚ) (n : NoteData)
    (hh : n.hit = false) (hm : n.missed = false) :
    (MISS_Z < currentZ t n → noteStep hands t n = StepOut.toMiss) ∧
      (currentZ t n < PLAYER_Z + 1 → noteStep hands t n ≠ StepOut.toMiss) := by
  constructor
  · intro hz
    simp [noteStep, hh, hm, hz]
  · intro hz
    have hnm : ¬(MISS_Z < currentZ t n) := by
      rw [MISS_Z]; rw [PLAYER_Z] at hz; linarith
    simp only [noteStep, hh, hm, Bool.or_self, Bool.false_eq_true, if_false, if_neg hnm]
    split
    · split
      · simp
      · split <;> simp
    · simp

/-- Witness for the C2 amended theorem: both branches evaluated at
concrete inputs. -/
theorem miss_checked_first_witness :
    noteStep cexHands (11/20) cexNote = StepOut.toMiss ∧
      noteStep cexHands 0 cexNote ≠ StepOut.toMiss :=
  ⟨(miss_checked_first cexHands (11/20) cexNote rfl rfl).1 (by decide),
   (miss_checked_first cexHands 0 cexNote rfl rfl).2 (by decide)⟩

lemma takeWhile_length_iff {α : Type} [Inhabited α] (p : α → Bool) :
    ∀ (l : List α),
      (∀ i j, i ≤ j → j < l.length → p (l.getD j default) = true →
        p (l.getD i default) = true) →
      ∀ k, k < l.length →
        (k < (l.takeWhile p).length ↔ p (l.getD k default) = true)
  | [], _, k, hk => by simp at hk
  | a :: l, hmono, k, hk => by
    rw [List.takeWhile_cons]
    by_cases hpa : p a = true
    · rw [if_pos hpa]
      cases k with
      | zero => simpa using hpa
      | succ k =>
        have hk0 : k < l.length := by simpa using hk
        have hm : ∀ i j, i ≤ j → j < l.length → p (l.getD j default) = true →
            p (l.getD i default) = true := by
          intro i j hij hj hpj
          have := hmono (i + 1) (j + 1) (by omega) (by simpa using Nat.succ_lt_succ hj)
          simpa using this (by simpa using hpj)
        have := takeWhile_length_iff p l hm k hk0
        simpa [Nat.succ_lt_succ_iff] using this
    · rw [if_neg hpa]
      simp only [List.length_nil]
      constructor
      · omega
      · intro hpk
        exfalso
        exact hpa (hmono 0 k (Nat.zero_le k) hk (by simpa using hpk))

lemma sorted_drop_mono {notes : List NoteData} (hs : notes.Sorted leTime)
    (cursor : ℕ) (t : ℚ) :
    ∀ i j, i ≤ j → j < (notes.drop cursor).length →
      (fun n => decide (n.time - spawnAheadTime ≤ t)) ((notes.drop cursor).getD j default) = true →
      (fun n => decide (n.time - spawnAheadTime ≤ t)) ((notes.drop cursor).getD i default) = true := by
  intro i j hij hj hpj
  have hi : i < (notes.drop cursor).length := lt_of_le_of_lt (by omega) hj
  have hle : ((notes.drop cursor).getD i default).time ≤ ((notes.drop cursor).getD j default).time := by
    rcases eq_or_lt_of_le hij with h | h
    · rw [h]
    · have hp : (notes.drop cursor).Pairwise leTime := List.Pairwise.drop hs
      have := List.pairwise_iff_getElem.mp hp i j hi hj h
      rw [List.getD_eq_getElem?_getD, List.getD_eq_getElem?_getD,
        List.getElem?_eq_getElem hi, List.getElem?_eq_getElem hj]
      exact this
  simp only [decide_eq_true_eq] at hpj ⊢
  linarith

/-- C8: with a time-sorted chart, a tick never moves the spawn cursor
backward, the cursor advances by exactly the admitted while-loop count,
the spawn lead time is the spawn-to-player distance over the note
speed, and a not-yet-admitted note is admitted this tick exactly when
note.time - spawnAheadTime <= time; so admissions form a contiguous
prefix of the unspawned suffix and no note is admitted twice. -/
theorem spawn_admission (st : SceneState) (t : ℚ) (hands : HandPositions)
    (hs : st.notes.Sorted leTime) :
    spawnAheadTime = (PLAYER_Z - SPAWN_Z) / NOTE_SPEED ∧
    st.cursor ≤ (tick st t hands).1.cursor ∧
    (tick st t hands).1.cursor = st.cursor + admitCount st.notes st.cursor t ∧
    ∀ j, st.cursor ≤ j → j < st.notes.length →
      (j < (tick st t hands).1.cursor ↔
        (st.notes.getD j default).time - spawnAheadTime ≤ t) := by
  refine ⟨by norm_num [spawnAheadTime, PLAYER_Z, SPAWN_Z, NOTE_SPEED, abs], ?_, rfl, ?_⟩
  · exact Nat.le_add_right _ _
  · intro j hcj hj
    have hcur : (tick st t hands).1.cursor = st.cursor + admitCount st.notes st.cursor t := rfl
    rw [hcur]
    have hk : j - st.cursor < (st.notes.drop st.cursor).length := by
      rw [List.length_drop]; omega
    have := takeWhile_length_iff (fun n => decide (n.time - spawnAheadTime ≤ t))
      (st.notes.drop st.cursor) (sorted_drop_mono hs st.cursor t) (j - st.cursor) hk
    have hget : (st.notes.drop st.cursor).getD (j - st.cursor) default
        = st.notes.getD j default := by
      rw [List.getD_eq_getElem?_getD, List.getD_eq_getElem?_getD,
        List.getElem?_drop, show st.cursor + (j - st.cursor) = j by omega]
    rw [hget] at this
    simp only [decide_eq_true_eq] at this
    unfold admitCount
    rw [← this]
    omega

/-- A hands sample with both hands absent. -/
def noHands : HandPositions :=
  { left := none, right := none, leftVelocity := (0, 0, 0), rightVelocity := (0, 0, 0) }

/-- A two-note sorted scene before any spawn. -/
def wScene : SceneState :=
  { notes :=
      [{ id := 0, time := 0, lineIndex := 0, lineLayer := 0,
         type := Hand.left, cutDirection := CutDir.any },
       { id := 1, time := 10, lineIndex := 2, lineLayer := 0,
         type := Hand.right, cutDirection := CutDir.any }],
    cursor := 0, active := [] }

/-- Witness for C8 at time 1: the first note (time 0) is admitted, the
second (time 10) is not. -/
theorem spawn_admission_witness :
    wScene.cursor ≤ (tick wScene 1 noHands).1.cursor ∧
      ((0 : ℕ) < (tick wScene 1 noHands).1.cursor ↔
        (wScene.notes.getD 0 default).time - spawnAheadTime ≤ 1) ∧
      ((1 : ℕ) < (tick wScene 1 noHands).1.cursor ↔
        (wScene.notes.getD 1 default).time - spawnAheadTime ≤ 1) :=
  ⟨(spawn_admission wScene 1 noHands (by decide)).2.1,
   (spawn_admission wScene 1 noHands (by decide)).2.2.2 0 (by decide) (by decide),
   (spawn_admission wScene 1 noHands (by decide)).2.2.2 1 (by decide) (by decide)⟩

lemma getD_set_ite {α : Type} [Inhabited α] (l : List α) (j i : ℕ) (a : α) :
    (l.set j a).getD i default
      = if j = i ∧ j < l.length then a else l.getD i default := by
  rw [List.getD_eq_getElem?_getD, List.getD_eq_getElem?_getD, List.getElem?_set]
  by_cases h1 : j = i
  · subst h1
    by_cases h2 : j < l.length
    · simp [h2]
    · have hnone : l[j]? = none := List.getElem?_eq_none (le_of_not_lt h2)
      simp [h2, hnone]
  · simp [h1]

lemma noteStep_skip_of_terminal {hands : HandPositions} {t : ℚ} {n : NoteData}
    (h : n.hit = true ∨ n.missed = true) :
    noteStep hands t n = StepOut.skip := by
  rcases h with h | h <;> simp [noteStep, h]

lemma noteStep_flags_of_resolving {hands : HandPositions} {t : ℚ} {n : NoteData}
    (h : noteStep hands t n ≠ StepOut.skip) :
    n.hit = false ∧ n.missed = false := by
  by_cases hh : n.hit = true
  · exact absurd (noteStep_skip_of_terminal (Or.inl hh)) h
  · by_cases hm : n.missed = true
    · exact absurd (noteStep_skip_of_terminal (Or.inr hm)) h
    · exact ⟨Bool.eq_false_iff.mpr hh, Bool.eq_false_iff.mpr hm⟩

lemma procActive_invariant (hands : HandPositions) (t : ℚ) :
    ∀ (l : List ℕ) (notes : List NoteData) (i : ℕ),
      (procActive hands t l notes).2.1.length = notes.length ∧
      (((notes.getD i default).hit = true ∨ (notes.getD i default).missed = true) →
        (procActive hands t l notes).2.1.getD i default = notes.getD i default) ∧
      (¬((notes.getD i default).hit = true ∧ (notes.getD i default).missed = true) →
        ¬(((procActive hands t l notes).2.1.getD i default).hit = true ∧
          ((procActive hands t l notes).2.1.getD i default).missed = true))
  | [], notes, i => by
    refine ⟨rfl, fun _ => rfl, fun h => ?_⟩
    simpa [procActive] using h
  | j :: rest, notes, i => by
    rcases hstep : noteStep hands t (notes.getD j default) with _ | _ | _ | g
    · simp only [procActive, hstep]
      exact procActive_invariant hands t rest notes i
    · simp only [procActive, hstep]
      exact procActive_invariant hands t rest notes i
    · have hfl := noteStep_flags_of_resolving
        (fun hc => StepOut.noConfusion (hstep.symm.trans hc))
      simp only [procActive, hstep]
      set marked : NoteData := { notes.getD j default with missed := true } with hmarked
      set notes1 := notes.set j marked with hnotes1
      have hIH := procActive_invariant hands t rest notes1 i
      have hgd : notes1.getD i default
          = if j = i ∧ j < notes.length then marked else notes.getD i default :=
        getD_set_ite notes j i marked
      refine ⟨?_, ?_, ?_⟩
      · rw [hIH.1, hnotes1, List.length_set]
      · intro hterm
        have hij : ¬(j = i ∧ j < notes.length) := by
          rintro ⟨rfl, _⟩
          rcases hterm with h | h
          · rw [hfl.1] at h; cases h
          · rw [hfl.2] at h; cases h
        have hsame : notes1.getD i default = notes.getD i default := by
          rw [hgd, if_neg hij]
        rw [hIH.2.1 (by rw [hsame]; exact hterm), hsame]
      · intro hval
        refine hIH.2.2 ?_
        rw [hgd]
        by_cases hij : j = i ∧ j < notes.length
        · rw [if_pos hij]
          intro hb
          rw [hmarked] at hb
          simp only at hb
          rw [hfl.1] at hb
          exact Bool.false_ne_true hb.1
        · rw [if_neg hij]; exact hval
    · have hfl := noteStep_flags_of_resolving
        (fun hc => StepOut.noConfusion (hstep.symm.trans hc))
      simp only [procActive, hstep]
      set marked : NoteData :=
        { notes.getD j default with hit := true, hitTime := some t } with hmarked
      set notes1 := notes.set j marked with hnotes1
      have hIH := procActive_invariant hands t rest notes1 i
      have hgd : notes1.getD i default
          = if j = i ∧ j < notes.length then marked else notes.getD i default :=
        getD_set_ite notes j i marked
      refine ⟨?_, ?_, ?_⟩
      · rw [hIH.1, hnotes1, List.length_set]
      · intro hterm
        have hij : ¬(j = i ∧ j < notes.length) := by
          rintro ⟨rfl, _⟩
          rcases hterm with h | h
          · rw [hfl.1] at h; cases h
          · rw [hfl.2] at h; cases h
        have hsame : notes1.getD i default = notes.getD i default := by
          rw [hgd, if_neg hij]
        rw [hIH.2.1 (by rw [hsame]; exact hterm), hsame]
      · intro hval
        refine hIH.2.2 ?_
        rw [hgd]
        by_cases hij : j = i ∧ j < notes.length
        · rw [if_pos hij]
          intro hb
          rw [hmarked] at hb
          simp only at hb
          rw [hfl.2] at hb
          exact Bool.false_ne_true hb.2
        · rw [if_neg hij]; exact hval

lemma tick_invariant (st : SceneState) (t : ℚ) (hands : HandPositions) (i : ℕ) :
    (tick st t hands).1.notes.length = st.notes.length ∧
    st.cursor ≤ (tick st t hands).1.cursor ∧
    (((st.notes.getD i default).hit = true ∨ (st.notes.getD i default).missed = true) →
      (tick st t hands).1.notes.getD i default = st.notes.getD i default) ∧
    (¬((st.notes.getD i default).hit = true ∧ (st.notes.getD i default).missed = true) →
      ¬(((tick st t hands).1.notes.getD i default).hit = true ∧
        ((tick st t hands).1.notes.getD i default).missed = true)) := by
  have h := procActive_invariant hands t
    ((st.active ++ (List.range (admitCount st.notes st.cursor t)).map
      (fun k => st.cursor + k)).reverse) st.notes i
  exact ⟨h.1, Nat.le_add_right _ _, h.2.1, h.2.2⟩

/-- C9: over any run of the tick loop, note statuses evolve
monotonically: the spawn cursor (pending to active) only advances, a
note that is hit or missed at the start of the run is bitwise unchanged
at its end (terminal states are never re-evaluated or re-entered), a
note is never both hit and missed, and the chart length is stable. -/
theorem status_monotonic (inputs : List (ℚ × HandPositions)) :
    ∀ (st : SceneState) (i : ℕ),
      (runTicks st inputs).notes.length = st.notes.length ∧
      st.cursor ≤ (runTicks st inputs).cursor ∧
      (((st.notes.getD i default).hit = true ∨ (st.notes.getD i default).missed = true) →
        (runTicks st inputs).notes.getD i default = st.notes.getD i default) ∧
      (¬((st.notes.getD i default).hit = true ∧ (st.notes.getD i default).missed = true) →
        ¬(((runTicks st inputs).notes.getD i default).hit = true ∧
          ((runTicks st inputs).notes.getD i default).missed = true)) := by
  induction inputs with
  | nil => exact fun st i => ⟨rfl, le_refl _, fun _ => rfl, fun h => h⟩
  | cons p rest ih =>
    intro st i
    obtain ⟨t, hands⟩ := p
    have h1 := tick_invariant st t hands i
    have h2 := ih (tick st t hands).1 i
    have hrun : runTicks st ((t, hands) :: rest) = runTicks (tick st t hands).1 rest := rfl
    rw [hrun]
    refine ⟨h2.1.trans h1.1, le_trans h1.2.1 h2.2.1, ?_, ?_⟩
    · intro hterm
      have hmid := h1.2.2.1 hterm
      rw [h2.2.2.1 (by rw [hmid]; exact hterm), hmid]
    · intro hval
      exact h2.2.2.2 (h1.2.2.2 hval)

/-- Witness for C9: a two-tick run over the concrete scene keeps the
cursor monotone and the first note never both hit and missed. -/
theorem status_monotonic_witness :
    wScene.cursor ≤ (runTicks wScene [(1, noHands), (2, noHands)]).cursor ∧
      ¬(((runTicks wScene [(1, noHands), (2, noHands)]).notes.getD 0 default).hit = true ∧
        ((runTicks wScene [(1, noHands), (2, noHands)]).notes.getD 0 default).missed = true) :=
  ⟨(status_monotonic [(1, noHands), (2, noHands)] wScene 0).2.1,
   (status_monotonic [(1, noHands), (2, noHands)] wScene 0).2.2.2 (by decide)⟩

end TempoStrike
